import Mathlib

/-!
Verification of the user-registration endpoint of `nodesocial`
(`src/user/UserRouter.js` and `src/user/UserService.js`).

The request handler is an express route with three express-validator
chains (username, email, password) followed by a handler that either
returns the collected validation errors as a 400 response, or hashes the
password with bcrypt, persists the record, and returns 200.

Modelling conventions:
- request-body values are modelled as JSON strings or null (`Value`);
  a body is an association list in key insertion order, as the payloads
  in the specification and the test suite are flat JSON objects;
- express-validator reads a missing or null field as the empty string
  before running the standard validators, so `fieldStr` coerces
  `none`/`vNull` to `""`;
- the validator.js predicates (`isEmail`, `isFQDN`, `isLength`,
  `isStrongPassword`, `notEmpty`) are translated over `List Char` from
  validator 13.6 (the version express-validator 6.12.1 bundles), with
  default options as invoked by the router; string lengths count code
  points and byte limits count UTF-8 bytes;
- bcrypt is an external collaborator; it is modelled as an abstract
  `hash : String → String` parameter, and `bcrypt.hash` rejects when the
  submitted password is not a string, so `save` returns `Option`;
- the User Store is a list of persisted bodies; `User.create` appends.
-/

namespace UserReg

/-- A JSON field value of the request body: a string or null. -/
inductive Value where
  | vStr (s : String)
  | vNull
deriving DecidableEq

/-- A request body or a persisted record: fields in insertion order. -/
abbrev Body := List (String × Value)

/-- First binding of key `k`, as reading a property of a JS object. -/
def getKV {α : Type} (m : List (String × α)) (k : String) : Option α :=
  (m.find? (fun p => decide (p.1 = k))).map Prod.snd

/-- JS property assignment `m[k] = v`: overwrite in place, else append. -/
def upsert {α : Type} : List (String × α) → String → α → List (String × α)
  | [], k, v => [(k, v)]
  | p :: rest, k, v => if p.1 = k then (k, v) :: rest else p :: upsert rest k v

/-- express-validator coercion of a field value to the string the
standard validators run on: missing and null fields become `""`. -/
def toStringV : Option Value → String
  | some (Value.vStr s) => s
  | _ => ""

/-- The string value of field `k` of the body, as validated. -/
def fieldStr (body : Body) (k : String) : String :=
  toStringV (getKV body k)

/-! ### validator.js character classes and predicates -/

def isAsciiLowerC (c : Char) : Bool :=
  decide (97 ≤ c.toNat) && decide (c.toNat ≤ 122)

def isAsciiUpperC (c : Char) : Bool :=
  decide (65 ≤ c.toNat) && decide (c.toNat ≤ 90)

def isAsciiAlphaC (c : Char) : Bool :=
  isAsciiLowerC c || isAsciiUpperC c

def isAsciiDigitC (c : Char) : Bool :=
  decide (48 ≤ c.toNat) && decide (c.toNat ≤ 57)

/-- The unicode ranges validator.js accepts in email local parts and
domain labels: U+00A0-U+D7FF, U+F900-U+FDCF, U+FDF0-U+FFEF. -/
def isUniChar (c : Char) : Bool :=
  (decide (0xA0 ≤ c.toNat) && decide (c.toNat ≤ 0xD7FF)) ||
  (decide (0xF900 ≤ c.toNat) && decide (c.toNat ≤ 0xFDCF)) ||
  (decide (0xFDF0 ≤ c.toNat) && decide (c.toNat ≤ 0xFFEF))

/-- JS regex whitespace class. -/
def isJsSpaceChar (c : Char) : Bool :=
  [9, 10, 11, 12, 13, 32, 0xA0, 0x1680, 0x2028, 0x2029,
   0x202F, 0x205F, 0x3000, 0xFEFF].contains c.toNat ||
  (decide (0x2000 ≤ c.toNat) && decide (c.toNat ≤ 0x200A))

/-- Split a character list at every occurrence of `sep`,
as `String.prototype.split` with a one-character separator. -/
def splitChar (sep : Char) : List Char → List (List Char)
  | [] => [[]]
  | c :: rest =>
    if c = sep then [] :: splitChar sep rest
    else
      match splitChar sep rest with
      | [] => [[c]]
      | g :: gs => (c :: g) :: gs

/-- Join groups with `sep` between them, as `Array.prototype.join`. -/
def joinChar (sep : Char) : List (List Char) → List Char
  | [] => []
  | [g] => g
  | g :: gs => g ++ sep :: joinChar sep gs

/-- UTF-8 size of one character, for the byte-length limits. -/
def charUtf8Size (c : Char) : Nat :=
  if c.toNat < 0x80 then 1
  else if c.toNat < 0x800 then 2
  else if c.toNat < 0x10000 then 3
  else 4

def utf8Len (cs : List Char) : Nat := (cs.map charUtf8Size).sum

/-- Codes of the special characters of the validator.js email local-part
atom class (the class of the regex, besides letters and digits). -/
def emailUserSpecialCodes : List Nat :=
  [33, 35, 36, 37, 38, 39, 42, 43, 45, 47, 61, 63, 94, 95, 96,
   123, 124, 125, 126]

def isEmailUserChar (c : Char) : Bool :=
  isAsciiAlphaC c || isAsciiDigitC c ||
  emailUserSpecialCodes.contains c.toNat || isUniChar c

/-- One dot-separated atom of an unquoted email local part. -/
def emailUserPartOk (p : List Char) : Bool :=
  !p.isEmpty && p.all isEmailUserChar

/-- An unescaped character inside a quoted email local part:
U+0001-U+007F except the quote and the backslash, or the unicode
ranges. -/
def quotedUserCharOk (c : Char) : Bool :=
  (decide (1 ≤ c.toNat) && decide (c.toNat ≤ 0x7F) &&
   !decide (c.toNat = 0x22) && !decide (c.toNat = 0x5C)) || isUniChar c

/-- A character allowed after a backslash escape inside a quoted email
local part: U+0001-U+007F except the newline, or the unicode ranges. -/
def quotedUserEscapedCharOk (c : Char) : Bool :=
  (decide (1 ≤ c.toNat) && decide (c.toNat ≤ 0x7F) &&
   !decide (c.toNat = 0x0A)) || isUniChar c

/-- Content of a quoted email local part: a sequence of allowed single
characters and backslash-escaped pairs. -/
def quotedUserContentOk : List Char → Bool
  | [] => true
  | [c] => !(c = '\\') && quotedUserCharOk c
  | c :: d :: rest =>
    if c = '\\' then quotedUserEscapedCharOk d && quotedUserContentOk rest
    else quotedUserCharOk c && quotedUserContentOk (d :: rest)

/-- A domain label character per the validator.js isFQDN label regex
(underscores are accepted by the regex and rejected by a later check). -/
def fqdnLabelChar (c : Char) : Bool :=
  isAsciiAlphaC c || isAsciiDigitC c || c = '-' || c = '_' || isUniChar c

def isFullWidthChar (c : Char) : Bool :=
  decide (0xFF01 ≤ c.toNat) && decide (c.toNat ≤ 0xFF5E)

/-- One domain label check of validator.js isFQDN with the default
options (allow_underscores false). -/
def fqdnPartOk (p : List Char) : Bool :=
  decide (p.length ≤ 63) && !p.isEmpty && p.all fqdnLabelChar &&
  !(p.any isFullWidthChar) &&
  !(p.headD ' ' = '-') && !(p.getLastD ' ' = '-') &&
  !(p.contains '_')

/-- The punycode alternative of the validator.js TLD regex. -/
def xnTld : List Char → Bool
  | x :: n :: rest =>
    (x = 'x' || x = 'X') && (n = 'n' || n = 'N') &&
    decide (2 ≤ rest.length) &&
    rest.all (fun c => isAsciiAlphaC c || isAsciiDigitC c || c = '-')
  | _ => false

/-- The validator.js TLD regex: two or more letters (or accepted
unicode), or a punycode label. -/
def tldOk (t : List Char) : Bool :=
  (decide (2 ≤ t.length) &&
   t.all (fun c => isAsciiAlphaC c || isUniChar c)) || xnTld t

/-- validator.js isFQDN with require_tld true and the other options at
their defaults, as isEmail calls it. -/
def isFQDNChars (cs : List Char) : Bool :=
  let parts := splitChar '.' cs
  let tld := parts.getLastD []
  decide (2 ≤ parts.length) && tldOk tld && !(tld.any isJsSpaceChar) &&
  !(!tld.isEmpty && tld.all isAsciiDigitC) &&
  parts.all fqdnPartOk

/-- validator.js isEmail with the default options (no display name, no
IP domains, utf8 local parts, max-length checks on): split at the last
at-sign, bound the lengths, check the domain as an FQDN, then check the
local part as a quoted string or as dot-separated atoms. -/
def isEmailChars (cs : List Char) : Bool :=
  if decide (254 < cs.length) then false
  else
    let parts := splitChar '@' cs
    let domain := parts.getLastD []
    let user := joinChar '@' parts.dropLast
    if decide (64 < utf8Len user) || decide (254 < utf8Len domain) then false
    else if !isFQDNChars domain then false
    else
      match user with
      | '"' :: restU => quotedUserContentOk restU.dropLast
      | _ => (splitChar '.' user).all emailUserPartOk

def isEmail (s : String) : Bool := isEmailChars s.data

/-- `.notEmpty()`: the coerced string value is not empty. -/
def notEmptyChk (s : String) : Bool := !s.data.isEmpty

/-- `.isLength({ min, max })`: code-point length within the bounds. -/
def isLengthBetween (mn mx : Nat) (s : String) : Bool :=
  decide (mn ≤ s.data.length) && decide (s.data.length ≤ mx)

/-- `.isLength({ min })`. -/
def isLengthMin (mn : Nat) (s : String) : Bool :=
  decide (mn ≤ s.data.length)

/-- `.isStrongPassword({ minLowercase: 1, minUppercase: 1,
minNumbers: 1, minLength: 6, minSymbols: 0 })`: the symbol minimum of 0
is vacuous, the other minimums count ASCII character classes. -/
def isStrongPasswordChk (s : String) : Bool :=
  decide (6 ≤ s.data.length) &&
  decide (1 ≤ s.data.countP isAsciiLowerC) &&
  decide (1 ≤ s.data.countP isAsciiUpperC) &&
  decide (1 ≤ s.data.countP isAsciiDigitC)

/-! ### The express-validator chain machinery

A `check(field)` chain is a list of steps. A standard validator tests
the coerced string value and, on failure, records the message set by the
following `withMessage`. A custom validator may reject; express-validator
converts the rejection into a validation error carrying the message of
the thrown error. `bail()` stops the chain as soon as it holds an error.
The three chains of the route run one after the other and their errors
are collected in that order by `validationResult`. -/

inductive Validator where
  | std (test : String → Bool) (msg : String)
  | custom (run : String → Except String Unit)
  | bail

/-- Run one chain on the coerced value, accumulating error messages. -/
def runChain (value : String) : List Validator → List String → List String
  | [], errs => errs
  | Validator.std test msg :: rest, errs =>
    runChain value rest (if test value then errs else errs ++ [msg])
  | Validator.custom run :: rest, errs =>
    match run value with
    | Except.ok _ => runChain value rest errs
    | Except.error e => runChain value rest (errs ++ [e])
  | Validator.bail :: rest, errs =>
    if errs.isEmpty then runChain value rest errs else errs

/-- One entry of `validationResult(req).array()`. -/
structure FieldError where
  param : String
  msg : String
deriving DecidableEq

/-- `check('username')` chain of UserRouter. -/
def usernameChain : List Validator :=
  [Validator.std notEmptyChk "Username cannot be null",
   Validator.bail,
   Validator.std (isLengthBetween 4 32) "Must have min 4 and max 32 characters"]

/-- `check('email')` chain of UserRouter; the final custom uniqueness
validator is a parameter (`emailInUseValidator` in the router). -/
def emailChain (uniq : String → Except String Unit) : List Validator :=
  [Validator.std notEmptyChk "E-mail cannot be null",
   Validator.bail,
   Validator.std isEmail "E-mail is not valid",
   Validator.bail,
   Validator.custom uniq]

/-- `check('password')` chain of UserRouter. -/
def passwordChain : List Validator :=
  [Validator.std notEmptyChk "Password cannot be null",
   Validator.bail,
   Validator.std (isLengthMin 6) "Password must be at least 6 characters",
   Validator.bail,
   Validator.std isStrongPasswordChk
     "Password must have at least 1 uppercase, 1 lowercase letter and 1 number"]

/-- `validationResult(req).array()`: the errors of the three chains, in
middleware order. -/
def validationErrorsWith (uniq : String → Except String Unit)
    (body : Body) : List FieldError :=
  (runChain (fieldStr body "username") usernameChain []).map
    (fun m => ⟨"username", m⟩)
  ++ (runChain (fieldStr body "email") (emailChain uniq) []).map
    (fun m => ⟨"email", m⟩)
  ++ (runChain (fieldStr body "password") passwordChain []).map
    (fun m => ⟨"password", m⟩)

/-! ### The User Store and UserService -/

/-- The User Store: persisted records in creation order. -/
abbrev Store := List Body

/-- Modelled from the spec: `UserService.findByEmail`, called by the
email chain of UserRouter but absent from the provided UserService
exports (`module.exports = { save }`); the spec gives the User Store
contract `findByEmail(email) -> User | none`, a lookup of a stored
record by its email field. -/
def findByEmail (store : Store) (email : String) : Option Body :=
  store.find? (fun r => decide (getKV r "email" = some (Value.vStr email)))

/-- The custom validator body of `check('email')`: look the email up
and throw when a user is found. -/
def emailInUseValidator (store : Store) : String → Except String Unit :=
  fun email =>
    match findByEmail store email with
    | some _ => Except.error "E-mail already been used"
    | none => Except.ok ()

/-- `UserService.save`: hash the password, spread the body with the
password replaced by the hash, and create the record. `bcrypt.hash`
rejects when the extracted password is not a string, so no record is
produced in that case. -/
def save (hash : String → String) (body : Body) : Option Body :=
  match getKV body "password" with
  | some (Value.vStr pw) => some (upsert body "password" (Value.vStr (hash pw)))
  | _ => none

/-! ### The route handler -/

structure Response where
  status : Nat
  message : Option String
  validationErrors : Option (List (String × String))
deriving DecidableEq

/-- `validationErrors[error.param] = error.msg` over `errors.array()`. -/
def buildMapping (errs : List FieldError) : List (String × String) :=
  errs.foldl (fun m e => upsert m e.param e.msg) []

def mappingLookup (m : List (String × String)) (k : String) : Option String :=
  getKV m k

/-- The route handler of `POST /api/1.0/users`, with the email
uniqueness validator abstracted: collect the validation errors; on any
error answer 400 with the error mapping and leave the store unchanged;
otherwise save and answer 200. When `save` rejects (a non-string
password slipped through), the rejection escapes the handler and no
response is sent, which `none` records. -/
def handlePostWith (hash : String → String)
    (uniq : String → Except String Unit) (store : Store) (body : Body) :
    Option Response × Store :=
  if (validationErrorsWith uniq body).isEmpty then
    match save hash body with
    | some user =>
      (some ⟨200, some "User created", none⟩, store ++ [user])
    | none => (none, store)
  else
    (some ⟨400, none,
      some (buildMapping (validationErrorsWith uniq body))⟩, store)

/-- The route handler as wired in UserRouter: the uniqueness validator
queries the current store. -/
def handlePost (hash : String → String) (store : Store) (body : Body) :
    Option Response × Store :=
  handlePostWith hash (emailInUseValidator store) store body

/-! ### Observations on a response -/

def respStatus : Option Response → Option Nat
  | some r => some r.status
  | none => none

/-- The message of field `k` in the validationErrors of the response. -/
def respError (o : Option Response) (k : String) : Option String :=
  match o with
  | some r =>
    match r.validationErrors with
    | some m => mappingLookup m k
    | none => none
  | none => none

/-- The field names of the validationErrors mapping, in order. -/
def respErrorKeys : Option Response → List String
  | some r =>
    match r.validationErrors with
    | some m => m.map Prod.fst
    | none => []
  | none => []

/-- Number of stored records whose email field is `e`. -/
def countByEmail (store : Store) (e : String) : Nat :=
  (store.filter (fun r => decide (getKV r "email" = some (Value.vStr e)))).length

/-! ### The specification-side validation pipeline (section 4.1)

Ordered checks per field, short-circuiting within a field on the first
failure, each field a function of its own value only (and, for the
email uniqueness check, of the User Store). -/

/-- Spec 4.1, username: not empty, then length in [4,32]; the first
violated check gives the message, no violation gives none. -/
def specUsernameViolation (v : String) : Option String :=
  if notEmptyChk v = false then some "Username cannot be null"
  else if isLengthBetween 4 32 v = false then
    some "Must have min 4 and max 32 characters"
  else none

/-- Spec 4.1, email: not empty, then syntactically valid, then not
already registered (a lookup against the User Store). -/
def specEmailViolation (store : Store) (v : String) : Option String :=
  if notEmptyChk v = false then some "E-mail cannot be null"
  else if isEmail v = false then some "E-mail is not valid"
  else if (findByEmail store v).isSome then some "E-mail already been used"
  else none

/-- Spec 4.1, password: not empty, then length at least 6, then at
least one lowercase, one uppercase and one digit. -/
def specPasswordViolation (v : String) : Option String :=
  if notEmptyChk v = false then some "Password cannot be null"
  else if isLengthMin 6 v = false then
    some "Password must be at least 6 characters"
  else if isStrongPasswordChk v = false then
    some "Password must have at least 1 uppercase, 1 lowercase letter and 1 number"
  else none

/-- Outcome of the email chain when its uniqueness validator is
abstract: the rejection message of the custom validator surfaces as the
field error. -/
def emailChainResult (uniq : String → Except String Unit) (v : String) :
    Option String :=
  if notEmptyChk v = false then some "E-mail cannot be null"
  else if isEmail v = false then some "E-mail is not valid"
  else
    match uniq v with
    | Except.error m => some m
    | Except.ok _ => none

/-- The error list of the three chains, tagged with their params, as a
function of the three chain outcomes. -/
def groupedErrors (u e p : Option String) : List FieldError :=
  u.toList.map (fun m => (⟨"username", m⟩ : FieldError))
  ++ e.toList.map (fun m => (⟨"email", m⟩ : FieldError))
  ++ p.toList.map (fun m => (⟨"password", m⟩ : FieldError))

/-! ### Concrete payloads of the specification and the test suite -/

/-- The valid signup payload of the spec. -/
def validBody : Body :=
  [("username", Value.vStr "user1"), ("email", Value.vStr "user1@mail.com"),
   ("password", Value.vStr "P4ssword")]

/-- A concrete stand-in for the bcrypt collaborator, for witnesses. -/
def hashA : String → String := fun _ => "HASHED"

/-- The record `save` persists for the valid payload. -/
def c1Stored (hash : String → String) : Body :=
  [("username", Value.vStr "user1"), ("email", Value.vStr "user1@mail.com"),
   ("password", Value.vStr (hash "P4ssword"))]

/-- A payload whose password is shorter than 6 characters and has no
uppercase letter and no digit. -/
def shortPasswordBody : Body :=
  [("username", Value.vStr "user1"), ("email", Value.vStr "user1@email.com"),
   ("password", Value.vStr "abcde")]

/-- The payload with username and email null of the spec example. -/
def nullNamesBody : Body :=
  [("username", Value.vNull), ("email", Value.vNull),
   ("password", Value.vStr "P4ssword")]

/-- A payload with no username field. -/
def noUsernameBody : Body :=
  [("email", Value.vStr "user1@mail.com"), ("password", Value.vStr "P4ssword")]

/-- A payload with a syntactically invalid email. -/
def badEmailBody : Body :=
  [("username", Value.vStr "user1"), ("email", Value.vStr "@mail.com"),
   ("password", Value.vStr "P4ssword")]

/-- A payload with a field beyond username, email and password. -/
def extraFieldBody : Body :=
  [("username", Value.vStr "user1"), ("password", Value.vStr "P4ssword"),
   ("role", Value.vStr "admin")]

/-- A payload whose password is six lowercase letters: long enough, but
with no uppercase letter and no digit. -/
def lowercasePasswordBody : Body :=
  [("username", Value.vStr "user1"), ("email", Value.vStr "user1@email.com"),
   ("password", Value.vStr "abcdef")]

/-- A uniqueness validator whose store lookup always fails, standing for
an unavailable User Store. -/
def failUniq : String → Except String Unit :=
  fun _ => Except.error "lookup failure"

/-! ### Helper lemmas -/

theorem getKV_upsert {α : Type} (m : List (String × α)) (k : String) (v : α)
    (k2 : String) :
    getKV (upsert m k v) k2 = if k2 = k then some v else getKV m k2 := by
  induction m with
  | nil =>
    by_cases h : k2 = k
    · subst h; simp [upsert, getKV, List.find?]
    · simp [upsert, getKV, List.find?, h, Ne.symm h]
  | cons p rest ih =>
    by_cases hp : p.1 = k
    · by_cases h2 : k2 = k
      · subst h2; simp [upsert, getKV, List.find?, hp]
      · have hpk2 : ¬p.1 = k2 := by rw [hp]; exact Ne.symm h2
        simp [upsert, getKV, List.find?, hp, Ne.symm h2, hpk2, h2]
    · by_cases h3 : p.1 = k2
      · have hk : ¬(k2 = k) := fun hh => hp (h3.trans hh)
        simp [upsert, getKV, List.find?, hp, h3, hk]
      · simp only [upsert, if_neg hp]
        simp only [getKV, List.find?] at ih ⊢
        simp [h3, ih]

theorem map_fst_upsert {α : Type} (m : List (String × α)) (k : String) (v : α)
    (h : getKV m k ≠ none) :
    (upsert m k v).map Prod.fst = m.map Prod.fst := by
  induction m with
  | nil => simp [getKV] at h
  | cons p rest ih =>
    by_cases hp : p.1 = k
    · simp [upsert, hp]
    · have h2 : getKV rest k ≠ none := by
        simpa [getKV, List.find?, hp] using h
      simp [upsert, hp, ih h2]

theorem notEmptyChk_iff (s : String) : notEmptyChk s = true ↔ s ≠ "" := by
  cases s with
  | mk data =>
    simp only [notEmptyChk, Bool.not_eq_true', List.isEmpty_eq_false]
    constructor
    · intro h hc
      exact h (by simpa using congrArg String.data hc)
    · intro h hc
      exact h (by simpa using congrArg String.mk hc)

theorem fieldStr_eq_vStr (body : Body) (k : String) (e : String)
    (h : fieldStr body k = e) (he : e ≠ "") :
    getKV body k = some (Value.vStr e) := by
  unfold fieldStr at h
  cases hg : getKV body k with
  | none => rw [hg] at h; simp [toStringV] at h; exact absurd h.symm he
  | some v =>
    cases v with
    | vStr s => rw [hg] at h; simp [toStringV] at h; rw [h]
    | vNull => rw [hg] at h; simp [toStringV] at h; exact absurd h.symm he

theorem runChain_username (v : String) :
    runChain v usernameChain [] = (specUsernameViolation v).toList := by
  cases h1 : notEmptyChk v
  · simp [usernameChain, runChain, specUsernameViolation, h1]
  · cases h2 : isLengthBetween 4 32 v <;>
      simp [usernameChain, runChain, specUsernameViolation, h1, h2]

theorem runChain_password (v : String) :
    runChain v passwordChain [] = (specPasswordViolation v).toList := by
  cases h1 : notEmptyChk v
  · simp [passwordChain, runChain, specPasswordViolation, h1]
  · cases h2 : isLengthMin 6 v
    · simp [passwordChain, runChain, specPasswordViolation, h1, h2]
    · cases h3 : isStrongPasswordChk v <;>
        simp [passwordChain, runChain, specPasswordViolation, h1, h2, h3]

theorem runChain_email (uniq : String → Except String Unit) (v : String) :
    runChain v (emailChain uniq) [] = (emailChainResult uniq v).toList := by
  cases h1 : notEmptyChk v
  · simp [emailChain, runChain, emailChainResult, h1]
  · cases h2 : isEmail v
    · simp [emailChain, runChain, emailChainResult, h1, h2]
    · cases h3 : uniq v <;>
        simp [emailChain, runChain, emailChainResult, h1, h2, h3]

theorem emailChainResult_store (store : Store) (v : String) :
    emailChainResult (emailInUseValidator store) v
      = specEmailViolation store v := by
  unfold emailChainResult specEmailViolation emailInUseValidator
  cases h : findByEmail store v <;> simp [h]

theorem validationErrors_shape (uniq : String → Except String Unit)
    (body : Body) :
    validationErrorsWith uniq body =
      groupedErrors (specUsernameViolation (fieldStr body "username"))
        (emailChainResult uniq (fieldStr body "email"))
        (specPasswordViolation (fieldStr body "password")) := by
  unfold validationErrorsWith groupedErrors
  rw [runChain_username, runChain_email, runChain_password]

theorem buildMapping_grouped (u e p : Option String) :
    mappingLookup (buildMapping (groupedErrors u e p)) "username" = u ∧
    mappingLookup (buildMapping (groupedErrors u e p)) "email" = e ∧
    mappingLookup (buildMapping (groupedErrors u e p)) "password" = p ∧
    (buildMapping (groupedErrors u e p)).map Prod.fst =
      u.toList.map (fun _ => "username") ++ e.toList.map (fun _ => "email")
      ++ p.toList.map (fun _ => "password") := by
  rcases u with _ | mu <;> rcases e with _ | me <;> rcases p with _ | mp <;>
    simp [groupedErrors, buildMapping, upsert, mappingLookup, getKV,
      List.find?, Option.toList]

theorem handle_400 (hash : String → String)
    (uniq : String → Except String Unit) (store : Store) (body : Body)
    (h : validationErrorsWith uniq body ≠ []) :
    handlePostWith hash uniq store body =
      (some ⟨400, none, some (buildMapping (validationErrorsWith uniq body))⟩,
        store) := by
  have hb : (validationErrorsWith uniq body).isEmpty = false :=
    List.isEmpty_eq_false.mpr h
  unfold handlePostWith
  simp [hb]

theorem handle_success_inv (hash : String → String)
    (uniq : String → Except String Unit) (store : Store) (body : Body)
    (resp : Response)
    (h : (handlePostWith hash uniq store body).1 = some resp)
    (hs : resp.status = 200) :
    validationErrorsWith uniq body = [] ∧
    ∃ u, save hash body = some u ∧
      (handlePostWith hash uniq store body).2 = store ++ [u] := by
  by_cases he : validationErrorsWith uniq body = []
  · refine ⟨he, ?_⟩
    unfold handlePostWith at h ⊢
    rw [List.isEmpty_iff.mpr he] at h ⊢
    simp only [if_pos] at h ⊢
    cases hsave : save hash body with
    | none => rw [hsave] at h; simp at h
    | some u => exact ⟨u, rfl, by simp [hsave]⟩
  · rw [(handle_400 hash uniq store body he)] at h
    simp at h
    rw [← h] at hs
    simp at hs

theorem respFacts_handle (hash : String → String)
    (uniq : String → Except String Unit) (store : Store) (body : Body) :
    respError (handlePostWith hash uniq store body).1 "username"
      = specUsernameViolation (fieldStr body "username") ∧
    respError (handlePostWith hash uniq store body).1 "email"
      = emailChainResult uniq (fieldStr body "email") ∧
    respError (handlePostWith hash uniq store body).1 "password"
      = specPasswordViolation (fieldStr body "password") ∧
    respErrorKeys (handlePostWith hash uniq store body).1 =
      (specUsernameViolation (fieldStr body "username")).toList.map
        (fun _ => "username")
      ++ (emailChainResult uniq (fieldStr body "email")).toList.map
        (fun _ => "email")
      ++ (specPasswordViolation (fieldStr body "password")).toList.map
        (fun _ => "password") := by
  by_cases he : validationErrorsWith uniq body = []
  · have hsh := (validationErrors_shape uniq body).symm.trans he
    unfold groupedErrors at hsh
    rw [List.append_eq_nil] at hsh
    obtain ⟨hue, hpass⟩ := hsh
    rw [List.append_eq_nil] at hue
    obtain ⟨hu, hemail⟩ := hue
    rw [List.map_eq_nil_iff] at hu hemail hpass
    have hu2 : specUsernameViolation (fieldStr body "username") = none := by
      cases h : specUsernameViolation (fieldStr body "username") <;>
        simp [h, Option.toList] at hu ⊢
    have he2 : emailChainResult uniq (fieldStr body "email") = none := by
      cases h : emailChainResult uniq (fieldStr body "email") <;>
        simp [h, Option.toList] at hemail ⊢
    have hp2 : specPasswordViolation (fieldStr body "password") = none := by
      cases h : specPasswordViolation (fieldStr body "password") <;>
        simp [h, Option.toList] at hpass ⊢
    rw [hu2, he2, hp2]
    unfold handlePostWith
    rw [List.isEmpty_iff.mpr he]
    simp only [if_pos]
    cases hsave : save hash body <;>
      simp [respError, respErrorKeys, Option.toList]
  · have h1 : (handlePostWith hash uniq store body).1 =
        some ⟨400, none,
          some (buildMapping (validationErrorsWith uniq body))⟩ := by
      rw [handle_400 hash uniq store body he]
    rw [h1]
    simp only [respError, respErrorKeys]
    rw [validationErrors_shape uniq body]
    obtain ⟨a, b, c, d⟩ := buildMapping_grouped
      (specUsernameViolation (fieldStr body "username"))
      (emailChainResult uniq (fieldStr body "email"))
      (specPasswordViolation (fieldStr body "password"))
    exact ⟨a, b, c, d⟩

theorem respStatus_400 (hash : String → String)
    (uniq : String → Except String Unit) (store : Store) (body : Body)
    (h : validationErrorsWith uniq body ≠ []) :
    respStatus (handlePostWith hash uniq store body).1 = some 400 ∧
    (handlePostWith hash uniq store body).2 = store := by
  rw [handle_400 hash uniq store body h]
  exact ⟨rfl, rfl⟩

theorem emailResult_none_inv (uniq : String → Except String Unit)
    (v : String) (h : emailChainResult uniq v = none) :
    notEmptyChk v = true ∧ isEmail v = true ∧ uniq v = Except.ok () := by
  unfold emailChainResult at h
  cases hb : notEmptyChk v
  · simp [hb] at h
  · cases hc : isEmail v
    · simp [hb, hc] at h
    · cases hd : uniq v with
      | error m => simp [hb, hc, hd] at h
      | ok u => cases u; exact ⟨rfl, rfl, rfl⟩

theorem emailInUse_ok_inv (store : Store) (e : String)
    (h : emailInUseValidator store e = Except.ok ()) :
    findByEmail store e = none := by
  unfold emailInUseValidator at h
  cases hf : findByEmail store e
  · rfl
  · rw [hf] at h; simp at h

theorem countByEmail_append (s1 s2 : Store) (e : String) :
    countByEmail (s1 ++ s2) e = countByEmail s1 e + countByEmail s2 e := by
  simp [countByEmail, List.filter_append]

theorem countByEmail_zero (store : Store) (e : String)
    (h : findByEmail store e = none) : countByEmail store e = 0 := by
  unfold findByEmail at h
  rw [List.find?_eq_none] at h
  have hf : store.filter
      (fun r => decide (getKV r "email" = some (Value.vStr e))) = [] :=
    List.filter_eq_nil_iff.mpr (fun a ha => h a ha)
  simp [countByEmail, hf]

theorem save_preserves (hash : String → String) (body u : Body) (k : String)
    (h : save hash body = some u) (hk : k ≠ "password") :
    getKV u k = getKV body k := by
  unfold save at h
  cases hpw : getKV body "password" with
  | none => rw [hpw] at h; simp at h
  | some v =>
    cases v with
    | vNull => rw [hpw] at h; simp at h
    | vStr pw =>
      rw [hpw] at h
      simp only [Option.some.injEq] at h
      rw [← h, getKV_upsert]
      simp [hk]

/-! ### The claims -/

/-- C1: for the payload `{username: "user1", email: "user1@mail.com",
password: "P4ssword"}`, when no user with that email exists in the
store, the handler responds 200 with the success message, and afterwards
exactly one record was added, with username `"user1"`, email
`"user1@mail.com"`, and a stored password different from `"P4ssword"`
(bcrypt is an abstract salted hash whose output differs from the
plaintext). -/
theorem c1_successful_registration (hash : String → String) (store : Store)
    (hfind : findByEmail store "user1@mail.com" = none)
    (hh : hash "P4ssword" ≠ "P4ssword") :
    (handlePost hash store validBody).1
      = some ⟨200, some "User created", none⟩ ∧
    (handlePost hash store validBody).2 = store ++ [c1Stored hash] ∧
    getKV (c1Stored hash) "username" = some (Value.vStr "user1") ∧
    getKV (c1Stored hash) "email" = some (Value.vStr "user1@mail.com") ∧
    getKV (c1Stored hash) "password" ≠ some (Value.vStr "P4ssword") := by
  have hfe : fieldStr validBody "email" = "user1@mail.com" := by decide
  have hu : specUsernameViolation (fieldStr validBody "username") = none := by
    decide
  have hp : specPasswordViolation (fieldStr validBody "password") = none := by
    decide
  have hev : emailChainResult (emailInUseValidator store)
      (fieldStr validBody "email") = none := by
    rw [hfe]
    unfold emailChainResult emailInUseValidator
    rw [hfind]
    have h1 : notEmptyChk "user1@mail.com" = true := by decide
    have h2 : isEmail "user1@mail.com" = true := by decide
    simp [h1, h2]
  have herrs : validationErrorsWith (emailInUseValidator store) validBody
      = [] := by
    rw [validationErrors_shape, hu, hev, hp]
    simp [groupedErrors, Option.toList]
  have hsave : save hash validBody = some (c1Stored hash) := by
    simp [save, validBody, c1Stored, upsert, getKV, List.find?]
  refine ⟨?_, ?_, by simp [c1Stored, getKV, List.find?],
    by simp [c1Stored, getKV, List.find?], ?_⟩
  · unfold handlePost handlePostWith
    rw [herrs, hsave]
    rfl
  · unfold handlePost handlePostWith
    rw [herrs, hsave]
    rfl
  · simp [c1Stored, getKV, List.find?, hh]

/-- C2: for every pair of registration calls with the same email where
the first succeeds, the second call responds 400 with
`validationErrors.email` equal to the in-use message of the router, and
exactly one record with that email exists in the store afterwards (the
uniqueness check is a lookup against the User Store). -/
theorem c2_duplicate_email (hash : String → String) (store : Store)
    (body1 body2 : Body) (e : String) (resp1 : Response)
    (h1 : (handlePost hash store body1).1 = some resp1)
    (h1s : resp1.status = 200)
    (he1 : fieldStr body1 "email" = e)
    (he2 : fieldStr body2 "email" = e) :
    respStatus (handlePost hash (handlePost hash store body1).2 body2).1
      = some 400 ∧
    respError (handlePost hash (handlePost hash store body1).2 body2).1
      "email" = some "E-mail already been used" ∧
    countByEmail (handlePost hash (handlePost hash store body1).2 body2).2 e
      = 1 := by
  unfold handlePost at h1 ⊢
  obtain ⟨herrs, u1, hsave, hst⟩ :=
    handle_success_inv hash (emailInUseValidator store) store body1 resp1
      h1 h1s
  have hsh := (validationErrors_shape (emailInUseValidator store)
    body1).symm.trans herrs
  unfold groupedErrors at hsh
  rw [List.append_eq_nil] at hsh
  obtain ⟨hue, _⟩ := hsh
  rw [List.append_eq_nil] at hue
  obtain ⟨_, hemail⟩ := hue
  rw [List.map_eq_nil_iff] at hemail
  have hech : emailChainResult (emailInUseValidator store)
      (fieldStr body1 "email") = none := by
    cases h : emailChainResult (emailInUseValidator store)
        (fieldStr body1 "email") <;>
      simp [h, Option.toList] at hemail ⊢
  rw [he1] at hech
  obtain ⟨hne, hise, hok⟩ :=
    emailResult_none_inv (emailInUseValidator store) e hech
  have hfnone : findByEmail store e = none := emailInUse_ok_inv store e hok
  have hene : e ≠ "" := (notEmptyChk_iff e).mp hne
  have hb1e : getKV body1 "email" = some (Value.vStr e) :=
    fieldStr_eq_vStr body1 "email" e he1 hene
  have hu1e : getKV u1 "email" = some (Value.vStr e) := by
    rw [save_preserves hash body1 u1 "email" hsave (by decide), hb1e]
  have hf2 : findByEmail (store ++ [u1]) e = some u1 := by
    unfold findByEmail at hfnone ⊢
    rw [List.find?_append, hfnone]
    simp [List.find?, hu1e]
  rw [hst]
  have hech2 : emailChainResult (emailInUseValidator (store ++ [u1]))
      (fieldStr body2 "email") = some "E-mail already been used" := by
    rw [he2]
    unfold emailChainResult emailInUseValidator
    rw [hf2]
    simp [hne, hise]
  have hne2 : validationErrorsWith (emailInUseValidator (store ++ [u1]))
      body2 ≠ [] := by
    rw [validationErrors_shape, hech2]
    intro hc
    unfold groupedErrors at hc
    rw [List.append_eq_nil] at hc
    obtain ⟨hcc, _⟩ := hc
    rw [List.append_eq_nil] at hcc
    simp [Option.toList] at hcc
  obtain ⟨hs400, hstore2⟩ := respStatus_400 hash
    (emailInUseValidator (store ++ [u1])) (store ++ [u1]) body2 hne2
  refine ⟨hs400, ?_, ?_⟩
  · have := (respFacts_handle hash (emailInUseValidator (store ++ [u1]))
      (store ++ [u1]) body2).2.1
    rw [this, hech2]
  · rw [hstore2, countByEmail_append, countByEmail_zero store e hfnone]
    simp [countByEmail, List.filter, hu1e]

/-- Witness for C2: registering the valid payload twice on the empty
store. -/
theorem c2_witness :
    respStatus (handlePost hashA (handlePost hashA [] validBody).2
      validBody).1 = some 400 ∧
    respError (handlePost hashA (handlePost hashA [] validBody).2
      validBody).1 "email" = some "E-mail already been used" ∧
    countByEmail (handlePost hashA (handlePost hashA [] validBody).2
      validBody).2 "user1@mail.com" = 1 :=
  c2_duplicate_email hashA [] validBody validBody "user1@mail.com"
    ⟨200, some "User created", none⟩ (by decide) (by decide) (by decide)
    (by decide)

/-- C3 counterexample: the password `"abcde"` misses an uppercase letter
and a digit, so the claim expects the pattern message for it, but the
handler maps the password field to the length message (the length check
runs before the pattern check and bails). -/
theorem c3_counterexample :
    respStatus (handlePost hashA [] shortPasswordBody).1 = some 400 ∧
    respError (handlePost hashA [] shortPasswordBody).1 "password"
      = some "Password must be at least 6 characters" ∧
    ("Password must be at least 6 characters" : String)
      ≠ "Password must have at least 1 uppercase, 1 lowercase letter and 1 number" := by
  refine ⟨by decide, by decide, by decide⟩

/-- C3 amended: for every payload whose password is at least 6
characters long and misses at least one of lowercase letter, uppercase
letter, digit, the response is 400 and maps the password field to the
pattern message. -/
theorem c3_pattern_message (hash : String → String) (store : Store)
    (body : Body) (pw : String)
    (hpw : fieldStr body "password" = pw)
    (hlen : 6 ≤ pw.data.length)
    (hmiss : pw.data.countP isAsciiLowerC = 0 ∨
      pw.data.countP isAsciiUpperC = 0 ∨
      pw.data.countP isAsciiDigitC = 0) :
    respStatus (handlePost hash store body).1 = some 400 ∧
    respError (handlePost hash store body).1 "password"
      = some "Password must have at least 1 uppercase, 1 lowercase letter and 1 number" := by
  have hdne : pw.data ≠ [] := by
    intro hc; rw [hc] at hlen; simp at hlen
  have hne : notEmptyChk pw = true := by
    unfold notEmptyChk
    rw [List.isEmpty_eq_false.mpr hdne]
    rfl
  have hlenb : isLengthMin 6 pw = true := by
    simp [isLengthMin]; exact hlen
  have hstrong : isStrongPasswordChk pw = false := by
    rcases hmiss with h | h | h <;> simp [isStrongPasswordChk, h]
  have hspec : specPasswordViolation (fieldStr body "password")
      = some "Password must have at least 1 uppercase, 1 lowercase letter and 1 number" := by
    rw [hpw]
    simp [specPasswordViolation, hne, hlenb, hstrong]
  unfold handlePost
  have hne2 : validationErrorsWith (emailInUseValidator store) body ≠ [] := by
    rw [validationErrors_shape, hspec]
    intro hc
    unfold groupedErrors at hc
    rw [List.append_eq_nil] at hc
    simp [Option.toList] at hc
  refine ⟨(respStatus_400 hash (emailInUseValidator store) store body
    hne2).1, ?_⟩
  rw [(respFacts_handle hash (emailInUseValidator store) store body).2.2.1,
    hspec]

/-- Witness for the amended C3 at the all-lowercase password. -/
theorem c3_witness :
    respStatus (handlePost hashA [] lowercasePasswordBody).1 = some 400 ∧
    respError (handlePost hashA [] lowercasePasswordBody).1 "password"
      = some "Password must have at least 1 uppercase, 1 lowercase letter and 1 number" :=
  c3_pattern_message hashA [] lowercasePasswordBody "abcdef" (by decide)
    (by decide) (by decide)

/-- C4: each call to the handler either answers 200 and persists exactly
one new record at the end of the store, or answers 400 and leaves the
store unchanged. -/
theorem c4_persistence_frame (hash : String → String) (store : Store)
    (body : Body) (resp : Response)
    (h : (handlePost hash store body).1 = some resp) :
    (resp.status = 200 →
      (handlePost hash store body).2.length = store.length + 1 ∧
      (handlePost hash store body).2.take store.length = store) ∧
    (resp.status = 400 → (handlePost hash store body).2 = store) := by
  unfold handlePost at h ⊢
  by_cases he : validationErrorsWith (emailInUseValidator store) body = []
  · unfold handlePostWith at h ⊢
    rw [List.isEmpty_iff.mpr he] at h ⊢
    simp only [if_pos] at h ⊢
    cases hsave : save hash body with
    | none => rw [hsave] at h; simp at h
    | some u =>
      rw [hsave] at h
      dsimp only at h ⊢
      simp only [Option.some.injEq] at h
      constructor
      · intro _
        exact ⟨by simp, List.take_left store [u]⟩
      · intro h400
        rw [← h] at h400
        simp at h400
  · rw [handle_400 hash (emailInUseValidator store) store body he] at h ⊢
    simp only [Option.some.injEq] at h
    constructor
    · intro h200
      rw [← h] at h200
      simp at h200
    · intro _
      rfl

/-- Witness for C4 at the valid payload on the empty store. -/
theorem c4_witness :
    ((⟨200, some "User created", none⟩ : Response).status = 200 →
      (handlePost hashA [] validBody).2.length
        = List.length ([] : Store) + 1 ∧
      (handlePost hashA [] validBody).2.take (List.length ([] : Store))
        = []) ∧
    ((⟨200, some "User created", none⟩ : Response).status = 400 →
      (handlePost hashA [] validBody).2 = []) :=
  c4_persistence_frame hashA [] validBody ⟨200, some "User created", none⟩
    (by decide)

/-- C5: the violation mapping carries one key per failing field, in the
declaration order username, email, password; in particular username and
email null yield exactly the keys username, email, in that order. -/
theorem c5_violation_key_order :
    (∀ (hash : String → String) (store : Store) (body : Body),
      respErrorKeys (handlePost hash store body).1 =
        (specUsernameViolation (fieldStr body "username")).toList.map
          (fun _ => "username")
        ++ (specEmailViolation store (fieldStr body "email")).toList.map
          (fun _ => "email")
        ++ (specPasswordViolation (fieldStr body "password")).toList.map
          (fun _ => "password")) ∧
    respErrorKeys (handlePost hashA [] nullNamesBody).1
      = ["username", "email"] := by
  constructor
  · intro hash store body
    unfold handlePost
    have hd := (respFacts_handle hash (emailInUseValidator store)
      store body).2.2.2
    rw [hd, emailChainResult_store]
  · decide

/-- C6: for every payload, each field of the violation mapping carries
exactly the message of the first check that field fails, in the fixed
per-field order of the spec pipeline; a field with no violation is
absent, and each field is a function of its own value only (the email
also of the User Store). -/
theorem c6_first_violation_mapping (hash : String → String) (store : Store)
    (body : Body) :
    respError (handlePost hash store body).1 "username"
      = specUsernameViolation (fieldStr body "username") ∧
    respError (handlePost hash store body).1 "email"
      = specEmailViolation store (fieldStr body "email") ∧
    respError (handlePost hash store body).1 "password"
      = specPasswordViolation (fieldStr body "password") := by
  unfold handlePost
  obtain ⟨a, b, c, _⟩ :=
    respFacts_handle hash (emailInUseValidator store) store body
  exact ⟨a, by rw [b, emailChainResult_store], c⟩

/-- C7: for every payload whose username is absent, null or empty, the
response is 400 and maps the username field to the required message. -/
theorem c7_username_required (hash : String → String) (store : Store)
    (body : Body) (h : fieldStr body "username" = "") :
    respStatus (handlePost hash store body).1 = some 400 ∧
    respError (handlePost hash store body).1 "username"
      = some "Username cannot be null" := by
  have hu : specUsernameViolation (fieldStr body "username")
      = some "Username cannot be null" := by
    rw [h]; decide
  unfold handlePost
  have hne : validationErrorsWith (emailInUseValidator store) body ≠ [] := by
    rw [validationErrors_shape, hu]
    intro hc
    unfold groupedErrors at hc
    rw [List.append_eq_nil] at hc
    obtain ⟨hcc, _⟩ := hc
    rw [List.append_eq_nil] at hcc
    obtain ⟨hcd, _⟩ := hcc
    simp [Option.toList] at hcd
  exact ⟨(respStatus_400 hash (emailInUseValidator store) store body
      hne).1,
    by rw [(respFacts_handle hash (emailInUseValidator store) store
      body).1, hu]⟩

/-- Witness for C7: the payload with no username field. -/
theorem c7_witness :
    respStatus (handlePost hashA [] noUsernameBody).1 = some 400 ∧
    respError (handlePost hashA [] noUsernameBody).1 "username"
      = some "Username cannot be null" :=
  c7_username_required hashA [] noUsernameBody (by decide)

/-- C8: for every payload whose email is non-empty but fails the email
syntax check, the response is 400 and maps the email field to the
invalid message. -/
theorem c8_invalid_email_message (hash : String → String) (store : Store)
    (body : Body) (e : String) (h1 : fieldStr body "email" = e)
    (h2 : e ≠ "") (h3 : isEmail e = false) :
    respStatus (handlePost hash store body).1 = some 400 ∧
    respError (handlePost hash store body).1 "email"
      = some "E-mail is not valid" := by
  have hne : notEmptyChk e = true := (notEmptyChk_iff e).mpr h2
  have hev : specEmailViolation store (fieldStr body "email")
      = some "E-mail is not valid" := by
    rw [h1]
    simp [specEmailViolation, hne, h3]
  unfold handlePost
  have hnn : validationErrorsWith (emailInUseValidator store) body ≠ [] := by
    rw [validationErrors_shape, emailChainResult_store, hev]
    intro hc
    unfold groupedErrors at hc
    rw [List.append_eq_nil] at hc
    obtain ⟨hcc, _⟩ := hc
    rw [List.append_eq_nil] at hcc
    obtain ⟨_, hcd⟩ := hcc
    simp [Option.toList] at hcd
  refine ⟨(respStatus_400 hash (emailInUseValidator store) store body
    hnn).1, ?_⟩
  rw [(respFacts_handle hash (emailInUseValidator store) store body).2.1,
    emailChainResult_store, hev]

/-- Witness for C8 at the invalid email of the spec example. -/
theorem c8_witness :
    respStatus (handlePost hashA [] badEmailBody).1 = some 400 ∧
    respError (handlePost hashA [] badEmailBody).1 "email"
      = some "E-mail is not valid" :=
  c8_invalid_email_message hashA [] badEmailBody "@mail.com" (by decide)
    (by decide) (by decide)

/-- C9: `save` persists the request body with only the password field
replaced by the hash of the submitted password: the key list is
unchanged, the stored password is the hash, and every other field,
including fields beyond username, email and password, passes through
unchanged. -/
theorem c9_save_passthrough (hash : String → String) (body : Body)
    (pw : String) (k : String)
    (h : getKV body "password" = some (Value.vStr pw))
    (hk : k ≠ "password") :
    save hash body = some (upsert body "password" (Value.vStr (hash pw))) ∧
    (upsert body "password" (Value.vStr (hash pw))).map Prod.fst
      = body.map Prod.fst ∧
    getKV (upsert body "password" (Value.vStr (hash pw))) "password"
      = some (Value.vStr (hash pw)) ∧
    getKV (upsert body "password" (Value.vStr (hash pw))) k
      = getKV body k := by
  refine ⟨?_, ?_, ?_, ?_⟩
  · unfold save
    rw [h]
  · exact map_fst_upsert body "password" _ (by rw [h]; simp)
  · rw [getKV_upsert]; simp
  · rw [getKV_upsert]; simp [hk]

/-- Witness for C9 at a payload carrying an extra role field. -/
theorem c9_witness :
    save hashA extraFieldBody
      = some (upsert extraFieldBody "password"
          (Value.vStr (hashA "P4ssword"))) ∧
    (upsert extraFieldBody "password"
        (Value.vStr (hashA "P4ssword"))).map Prod.fst
      = extraFieldBody.map Prod.fst ∧
    getKV (upsert extraFieldBody "password"
        (Value.vStr (hashA "P4ssword"))) "password"
      = some (Value.vStr (hashA "P4ssword")) ∧
    getKV (upsert extraFieldBody "password"
        (Value.vStr (hashA "P4ssword"))) "role"
      = getKV extraFieldBody "role" :=
  c9_save_passthrough hashA extraFieldBody "P4ssword" "role" (by decide)
    (by decide)

/-- C10: for every payload with a non-empty syntactically valid email,
any rejection inside the email custom validator, whatever its message,
is converted into a 400 response carrying a validation error on the
email field; a response is always produced. -/
theorem c10_custom_rejection_400 (hash : String → String)
    (uniq : String → Except String Unit) (store : Store) (body : Body)
    (e msg : String) (h1 : fieldStr body "email" = e) (h2 : e ≠ "")
    (h3 : isEmail e = true) (h4 : uniq e = Except.error msg) :
    respStatus (handlePostWith hash uniq store body).1 = some 400 ∧
    respError (handlePostWith hash uniq store body).1 "email"
      = some msg := by
  have hne : notEmptyChk e = true := (notEmptyChk_iff e).mpr h2
  have hev : emailChainResult uniq (fieldStr body "email") = some msg := by
    rw [h1]
    unfold emailChainResult
    simp [hne, h3, h4]
  have hnn : validationErrorsWith uniq body ≠ [] := by
    rw [validationErrors_shape, hev]
    intro hc
    unfold groupedErrors at hc
    rw [List.append_eq_nil] at hc
    obtain ⟨hcc, _⟩ := hc
    rw [List.append_eq_nil] at hcc
    obtain ⟨_, hcd⟩ := hcc
    simp [Option.toList] at hcd
  refine ⟨(respStatus_400 hash uniq store body hnn).1, ?_⟩
  rw [(respFacts_handle hash uniq store body).2.1, hev]

/-- Witness for C10: the valid payload against an always-failing
lookup. -/
theorem c10_witness :
    respStatus (handlePostWith hashA failUniq [] validBody).1
      = some 400 ∧
    respError (handlePostWith hashA failUniq [] validBody).1 "email"
      = some "lookup failure" :=
  c10_custom_rejection_400 hashA failUniq [] validBody "user1@mail.com"
    "lookup failure" (by decide) (by decide) (by decide) rfl

/-- Witness for C1 at the concrete hash `hashA` and the empty store. -/
theorem c1_witness :
    (handlePost hashA [] validBody).1
      = some ⟨200, some "User created", none⟩ ∧
    (handlePost hashA [] validBody).2 = [] ++ [c1Stored hashA] ∧
    getKV (c1Stored hashA) "username" = some (Value.vStr "user1") ∧
    getKV (c1Stored hashA) "email" = some (Value.vStr "user1@mail.com") ∧
    getKV (c1Stored hashA) "password" ≠ some (Value.vStr "P4ssword") :=
  c1_successful_registration hashA [] (by decide) (by decide)

end UserReg
